import Mathlib

/-!
# Verification of the screenshot-service specification against its source

Shallow embedding of the URL validation, CSV extraction, single-screenshot
and bulk-screenshot pipeline logic of the repository (a web client plus
Deno serverless handlers calling the ScreenshotOne vendor API), together
with proofs settling the frozen specification claims.

Strings are modelled as lists of characters (`Chars`); every model
function is executable and structurally recursive so that concrete runs
reduce by `decide` / `rfl`.
-/

set_option maxRecDepth 10000

abbrev Chars := List Char

/-- Decimal digit character for a digit value, as produced by JavaScript
number-to-string conversion (only used for digit values `< 10`). -/
def digitCh (d : Nat) : Char := Char.ofNat (48 + d)

/-- Numeric value of a decimal digit character. -/
def chVal (c : Char) : Nat := c.toNat - 48

/-- Little-endian decimal digits of `n` (empty for `0`), with explicit fuel
to keep the recursion structural. -/
def natDigitsAux : Nat → Nat → List Nat
  | 0, _ => []
  | _ + 1, 0 => []
  | fuel + 1, n + 1 => ((n + 1) % 10) :: natDigitsAux fuel ((n + 1) / 10)

def natDigits (n : Nat) : List Nat := natDigitsAux n n

/-- The characters of the usual decimal rendering of `n`, as produced by
JavaScript template interpolation of a nonnegative integer. -/
def natChars (n : Nat) : Chars :=
  if n = 0 then ['0'] else ((natDigits n).map digitCh).reverse

def natStr (n : Nat) : String := (natChars n).asString

/-- Value of a little-endian digit list. -/
def digitsVal : List Nat → Nat
  | [] => 0
  | d :: ds => d + 10 * digitsVal ds

/-- Recover `n` from its decimal characters: reverse, map `chVal`, evaluate. -/
def charsVal (l : Chars) : Nat := digitsVal (l.reverse.map chVal)

/-! ## Generic character-list utilities mirroring the JavaScript string
operations used by the source (trim, split, quote stripping). -/

/-- JavaScript whitespace for the purposes of `String.prototype.trim`
(restricted to the ASCII whitespace characters that can occur here). -/
def isWsp (c : Char) : Bool := c == ' ' || c == '\t' || c == '\n' || c == '\r'

/-- Model of `line.trim()`. -/
def trimChars (l : Chars) : Chars :=
  ((l.dropWhile isWsp).reverse.dropWhile isWsp).reverse

/-- The line accumulated in reversed form in `acc`, with the `"\r"` of a
`"\r\n"` separator removed. -/
def emitLine (acc : Chars) : Chars :=
  match acc with
  | '\r' :: r => r.reverse
  | _ => acc.reverse

/-- Model of `s.split(/\r?\n/)`: splits at every `"\n"`, dropping an immediately
preceding `"\r"` (a lone `"\r"` is not a separator). -/
def splitLinesAux : Chars → Chars → List Chars
  | [], acc => [acc.reverse]
  | c :: rest, acc =>
    if c = '\n' then emitLine acc :: splitLinesAux rest []
    else splitLinesAux rest (c :: acc)

def splitLines (l : Chars) : List Chars := splitLinesAux l []

/-- Model of `s.split(",")`. -/
def splitCommaAux : Chars → Chars → List Chars
  | [], acc => [acc.reverse]
  | c :: rest, acc =>
    if c = ',' then acc.reverse :: splitCommaAux rest []
    else splitCommaAux rest (c :: acc)

def splitComma (l : Chars) : List Chars := splitCommaAux l []

def isQuote (c : Char) : Bool := c == '"' || c == '\''

def stripLeadQuote (l : Chars) : Chars :=
  match l with
  | c :: rest => if isQuote c then rest else l
  | [] => []

/-- Model of `cell.replace(/^["']|["']$/g, "")`: removes one leading and one
trailing quote character. -/
def stripQuotes (l : Chars) : Chars :=
  let l1 := stripLeadQuote l
  match l1.reverse with
  | c :: rest => if isQuote c then rest.reverse else l1
  | [] => l1

/-! ## URL parser model

The source validates URLs with the platform's WHATWG `new URL(...)`
constructor, which is not part of this repository.

Modelled from the spec: the URL Validator's contract is "parse as a URI;
valid only if parsing succeeds AND the scheme is exactly `http` or
`https`".  `parseURL` models the platform parser: a scheme (a letter
followed by letters, digits, `+`, `-`, `.`) terminated by `:`; for the
special schemes an authority introduced by slashes with a mandatory
nonempty host; the remainder up to `?`/`#` is the path.  As a modelling
simplification the parser rejects inputs containing whitespace or control
characters (the platform parser instead strips/escapes some of them);
no claim depends on such inputs. -/

structure URLRec where
  scheme : Chars
  host : Chars
  path : Chars
deriving DecidableEq, Repr

def okUrlChar (c : Char) : Bool := 32 < c.toNat

def isSchemeChar (c : Char) : Bool :=
  c.isAlpha || c.isDigit || c == '+' || c == '-' || c == '.'

/-- Split `l` at the first `:`, requiring every character before it to be
a scheme character; returns (scheme, rest). -/
def splitSchemeAux : Chars → Chars → Option (Chars × Chars)
  | [], _ => none
  | ':' :: rest, acc => some (acc.reverse, rest)
  | c :: rest, acc =>
    if isSchemeChar c then splitSchemeAux rest (c :: acc) else none

/-- Schemes the WHATWG standard treats as special (authority required). -/
def isSpecialScheme (s : Chars) : Bool :=
  s == "http".data || s == "https".data || s == "ws".data ||
  s == "wss".data || s == "ftp".data || s == "file".data

def dropSlashes : Chars → Chars
  | '/' :: rest => dropSlashes rest
  | '\\' :: rest => dropSlashes rest
  | l => l

def isHostDelim (c : Char) : Bool := c == '/' || c == '\\' || c == '?' || c == '#'

def isPathEnd (c : Char) : Bool := c == '?' || c == '#'

/-- Modelled from the spec: the platform WHATWG `new URL(...)` constructor
used by the validators is not part of this repository; the spec's
contract is "parse as a URI; valid only if parsing succeeds AND the
scheme is exactly `http` or `https`".  A scheme (a letter then letters,
digits, `+`, `-`, `.`) terminated by `:`; special schemes take an
authority introduced by slashes with a mandatory nonempty host, then a
path up to `?`/`#`; other schemes take an opaque path.  Inputs with
whitespace or control characters are rejected (the platform parser
strips or escapes some of them; no claim depends on such inputs). -/
def parseURL (l : Chars) : Option URLRec :=
  if l.all okUrlChar then
    match l with
    | [] => none
    | c0 :: _ =>
      if c0.isAlpha then
        match splitSchemeAux l [] with
        | none => none
        | some (rawScheme, rest) =>
          let scheme := rawScheme.map Char.toLower
          if isSpecialScheme scheme then
            let afterSlashes := dropSlashes rest
            let host := afterSlashes.takeWhile (fun c => !isHostDelim c)
            let tail := afterSlashes.dropWhile (fun c => !isHostDelim c)
            if host.isEmpty then none
            else
              let rawPath := (tail.takeWhile (fun c => !isPathEnd c)).map
                (fun c => if c == '\\' then '/' else c)
              some { scheme := scheme, host := host,
                     path := if rawPath.isEmpty then ['/'] else rawPath }
          else
            some { scheme := scheme, host := [],
                   path := rest.takeWhile (fun c => !isPathEnd c) }
      else none
  else none

/-- Function `isValidUrl` from `src/src/lib/screenshot-api.ts`,
`src/supabase/functions/bulk-screenshot/index.ts` and
`src/supabase/functions/screenshot/index.ts` (identical in all three):
`new URL(url)` must succeed and `parsed.protocol` must be `http:` or
`https:`. -/
def isValidUrlChars (l : Chars) : Bool :=
  match parseURL l with
  | some u => u.scheme == "http".data || u.scheme == "https".data
  | none => false

def isValidUrl (s : String) : Bool := isValidUrlChars s.data

/-- Function `sanitizeFilename` from `src/supabase/functions/bulk-screenshot/index.ts`:
hostname + pathname, non-`[a-zA-Z0-9-_]` replaced by `_`, truncated to
100 characters, falling back to `"screenshot"`. -/
def sanitizeFilenameChars (l : Chars) : Chars :=
  match parseURL l with
  | some u =>
    let f := (u.host ++ u.path).map
      (fun c => if c.isAlpha || c.isDigit || c == '-' || c == '_' then c else '_')
    let f := f.take 100
    if f.isEmpty then "screenshot".data else f
  | none => "screenshot".data

def sanitizeFilename (s : String) : String := (sanitizeFilenameChars s.data).asString


/-! ## CSV URL extraction (`parseCSVForUrls` in `src/src/lib/screenshot-api.ts`)
and its caller (`handleFileSelect` in the CSV upload component). -/

/-- First-seen-order deduplication, as performed by `[...new Set(urls)]`. -/
def dedupFirstAux : List Chars → List Chars → List Chars
  | _, [] => []
  | seen, x :: xs =>
    if x ∈ seen then dedupFirstAux seen xs else x :: dedupFirstAux (x :: seen) xs

def dedupFirst (l : List Chars) : List Chars := dedupFirstAux [] l

/-- Valid URLs found in one CSV line: trim the line, skip it when blank,
split on commas, trim each cell and strip surrounding quotes, keep the
cells accepted by the validator. -/
def lineUrls (line : Chars) : List Chars :=
  let t := trimChars line
  if t.isEmpty then []
  else ((splitComma t).map (fun c => stripQuotes (trimChars c))).filter isValidUrlChars

def parseCSVChars (content : Chars) : List Chars :=
  dedupFirst ((splitLines content).flatMap lineUrls)

/-- Function `parseCSVForUrls` from `src/src/lib/screenshot-api.ts`. -/
def parseCSVForUrls (s : String) : List String :=
  (parseCSVChars s.data).map List.asString

/-- Outcome of the CSV branch of `handleFileSelect` in the CSV upload
component (`src/unnamed/part_001`): the error message set, the URL list
kept in state, and the list handed to the `onUrlsExtracted` callback. -/
structure CsvSelectOutcome where
  error : Option String
  urls : List String
  extracted : Option (List String)
deriving DecidableEq, Repr

/-- Function `handleFileSelect` from `src/unnamed/part_001` (CSV-content branch):
rejects non-`.csv` names, errors on zero extracted URLs, truncates to 20
with a found-count message when more than 20 are extracted, and passes
`extractedUrls.slice(0, 20)` to the callback. -/
def handleFileSelect (fileName : String) (content : String) : CsvSelectOutcome :=
  if !(".csv".data.isSuffixOf fileName.data) then
    { error := some "Please upload a CSV file", urls := [], extracted := none }
  else
    let extractedUrls := parseCSVForUrls content
    if extractedUrls.length = 0 then
      { error := some "No valid URLs found in the CSV file", urls := [],
        extracted := none }
    else if extractedUrls.length > 20 then
      { error := some ("Found " ++ natStr extractedUrls.length ++
          " URLs. Maximum 20 allowed per request."),
        urls := extractedUrls.take 20, extracted := some (extractedUrls.take 20) }
    else
      { error := none, urls := extractedUrls,
        extracted := some (extractedUrls.take 20) }


/-! ## Single-screenshot path

`generateScreenshot` in `src/src/lib/screenshot-api.ts` (client) and the
`serve` handler in `src/supabase/functions/screenshot/index.ts` (server).
The server constructs a vendor `take` URL and returns it; it performs no
outbound call.  The exact query-string encoding of the vendor URL
(`URLSearchParams`, `sanitizeUrl`) is not modelled — no claim inspects
it — so the 200 payload carries the validated input URL as its datum. -/

inductive ScreenshotResult where
  | success (screenshotUrl : String)
  | failure (error : String)
deriving DecidableEq, Repr

def ScreenshotResult.isSuccess : ScreenshotResult → Bool
  | .success _ => true
  | .failure _ => false

inductive ServeResult where
  | err (status : Nat) (error : String)
  | ok (screenshotUrlFor : String)
deriving DecidableEq, Repr

/-- The `serve` handler of `src/supabase/functions/screenshot/index.ts`
(method check, credential check, body check, URL validation, then vendor
URL construction). -/
def screenshotServe (method : String) (apiKey : Option String)
    (bodyUrl : Option String) : ServeResult :=
  if method ≠ "POST" then .err 405 "Method not allowed"
  else
    match apiKey with
    | none => .err 500 "Screenshot service not configured"
    | some _ =>
      match bodyUrl with
      | none => .err 400 "URL is required"
      | some url =>
        if url = "" then .err 400 "URL is required"
        else if !isValidUrl url then .err 400 "Invalid URL format"
        else .ok url

structure SupabaseConfig where
  supabaseUrl : String
  anonKey : String
deriving DecidableEq, Repr

/-- One outbound network call made by the client. -/
inductive NetCall where
  | edgeScreenshot (bodyUrl : String)
deriving DecidableEq, Repr

/-- Function `generateScreenshot` from `src/src/lib/screenshot-api.ts`, composed
with the edge-function handler it fetches: returns the result together
with the list of network calls the client issued.  `transportFail` models
the `catch` branch (fetch rejection). -/
def generateScreenshot (config : Option SupabaseConfig) (apiKey : Option String)
    (transportFail : Bool) (url : String) : ScreenshotResult × List NetCall :=
  match config with
  | none =>
    (.failure "Supabase is not configured. Please connect Supabase to enable screenshots.",
     [])
  | some _ =>
    if transportFail then
      (.failure "Network error. Please try again.", [.edgeScreenshot url])
    else
      match screenshotServe "POST" apiKey (some url) with
      | .err _ e =>
        (.failure (if e = "" then "Failed to generate screenshot" else e),
         [.edgeScreenshot url])
      | .ok u => (.success u, [.edgeScreenshot url])

/-! ## Client batch map (`generateScreenshotsBatch` in
`src/src/lib/screenshot-api.ts`)

The result `Map` keyed by URL, populated by concurrent tasks.  `sched`
is the order in which the per-position calls settle (any permutation of
the positions); `resultAt i` is the result of the call issued for the
URL at position `i`. -/

/-- Model of `Map.prototype.set`: update in place if the key exists, else append. -/
def mapSet (m : List (String × ScreenshotResult)) (k : String)
    (v : ScreenshotResult) : List (String × ScreenshotResult) :=
  if m.any (·.1 == k) then m.map (fun e => if e.1 == k then (k, v) else e)
  else m ++ [(k, v)]

def batchStep (urls : List String) (resultAt : Nat → ScreenshotResult)
    (m : List (String × ScreenshotResult)) (i : Nat) :
    List (String × ScreenshotResult) :=
  mapSet m (urls.getD i "") (resultAt i)

/-- Final contents of the `results` map of `generateScreenshotsBatch`
after the calls settle in the order given by `sched`. -/
def batchRun (urls : List String) (resultAt : Nat → ScreenshotResult)
    (sched : List Nat) : List (String × ScreenshotResult) :=
  sched.foldl (batchStep urls resultAt) []

/-- The `completed` values passed to `onProgress` (`results.size` right
after each settling call's `set`), in settlement order. -/
def batchProgress (urls : List String) (resultAt : Nat → ScreenshotResult)
    (sched : List Nat) : List Nat :=
  (List.range sched.length).map
    (fun k => (batchRun urls resultAt (sched.take (k + 1))).length)

/-! ## Bulk-screenshot pipeline
(`src/supabase/functions/bulk-screenshot/index.ts`, the authoritative
speed-mode variant)

The handler validates, makes one vendor bulk call, fans out one image
download per vendor-successful item, accumulates `results` rows by
`push` from the concurrent tasks, zips the images plus a manifest, and
responds.  Execution model: each download task runs synchronously up to
its first `await`, so tasks for vendor-failed items push their failure
row immediately in submission order (phase A); tasks for
vendor-successful items suspend on `fetch` and push on resumption, in
the completion order given by `sched` (phase B). -/

inductive Speed where
  | fastest | fast | balanced | quality
deriving DecidableEq, Repr

def speedName : Speed → Chars
  | .fastest => "fastest".data
  | .fast => "fast".data
  | .balanced => "balanced".data
  | .quality => "quality".data

structure SpeedConfig where
  wait_until : Chars
  delay : ℚ
  /-- the JavaScript decimal rendering of `delay`, as interpolated into
  the manifest (`${config.delay}`) -/
  delayStr : Chars
  block_scripts : Bool
  timeout : Nat
  description : Chars
deriving DecidableEq, Repr

/-- Table `SPEED_CONFIGS` from `src/supabase/functions/bulk-screenshot/index.ts`. -/
def SPEED_CONFIGS : Speed → SpeedConfig
  | .fastest =>
    { wait_until := "load".data, delay := 0, delayStr := "0".data,
      block_scripts := true, timeout := 5000,
      description := "Screenshot in <1s, blocks all JavaScript including banners".data }
  | .fast =>
    { wait_until := "domcontentloaded".data, delay := 1 / 2, delayStr := "0.5".data,
      block_scripts := false, timeout := 8000,
      description := "Screenshot in 1-2s, allows essential scripts".data }
  | .balanced =>
    { wait_until := "networkidle2".data, delay := 1, delayStr := "1".data,
      block_scripts := false, timeout := 12000,
      description := "Screenshot in 2-3s, balanced approach (DEFAULT)".data }
  | .quality =>
    { wait_until := "networkidle0".data, delay := 3, delayStr := "3".data,
      block_scripts := false, timeout := 20000,
      description := "Screenshot in 4-6s, highest quality".data }

/-- Model of `const speedMode = body.speed || "fast"` (every present value of the
union type is truthy). -/
def chosenSpeed (s : Option Speed) : Speed := s.getD .fast

structure RespBody where
  error_code : Chars
  error_message : Chars
deriving DecidableEq, Repr

structure RespInner where
  is_successful : Bool
  status : Nat
  statusText : Chars
  body : Option RespBody
deriving DecidableEq, Repr

/-- One element of `bulkData.responses`: the vendor-hosted image URL and
the per-item render outcome. -/
structure ItemResponse where
  url : Chars
  response : Option RespInner
deriving DecidableEq, Repr

/-- Outcome of the `fetch(item.url)` image download for one item. -/
inductive DownloadOutcome where
  | ok (bytes : List Nat)
  | httpError (status : Nat)
  | transportError (msg : Chars)
deriving DecidableEq, Repr

/-- One element of the `results` accumulator. -/
structure Row where
  url : Chars
  filename : Chars
  success : Bool
  error : Option Chars
  timing : Option Nat
deriving DecidableEq, Repr

inductive ZData where
  | image (bytes : List Nat)
  | text (s : Chars)
deriving DecidableEq, Repr

/-- Model of `zip.file(name, data)` (JSZip): replace an existing entry with the
same name, else append. -/
def zipFile (entries : List (Chars × ZData)) (name : Chars) (data : ZData) :
    List (Chars × ZData) :=
  if entries.any (·.1 == name) then
    entries.map (fun e => if e.1 == name then (name, data) else e)
  else entries ++ [(name, data)]

/-- Inputs of one bulk download fan-out: the submitted URLs, the vendor
responses, and per-index download outcome and measured timing. -/
structure BatchRun where
  urls : List Chars
  resp : List ItemResponse
  downloads : Nat → DownloadOutcome
  timing : Nat → Nat

def BatchRun.n (b : BatchRun) : Nat := b.resp.length

/-- Test `item.response && item.response.is_successful` for item `i`. -/
def vendorOk (b : BatchRun) (i : Nat) : Bool :=
  match (b.resp.getD i ⟨[], none⟩).response with
  | some r => r.is_successful
  | none => false

/-- Filename `` `${sanitizeFilename(originalUrl)}_${index + 1}.png` ``. -/
def mkFilename (b : BatchRun) (i : Nat) : Chars :=
  sanitizeFilenameChars (b.urls.getD i []) ++ "_".data ++ natChars (i + 1) ++ ".png".data

/-- Fallback `item.response?.body?.error_message || "Screenshot failed"`. -/
def vendorFailMsg (b : BatchRun) (i : Nat) : Chars :=
  match (b.resp.getD i ⟨[], none⟩).response with
  | some r =>
    match r.body with
    | some bd => if bd.error_message.isEmpty then "Screenshot failed".data
                 else bd.error_message
    | none => "Screenshot failed".data
  | none => "Screenshot failed".data

/-- The `results` row the download task for item `i` pushes. -/
def rowOf (b : BatchRun) (i : Nat) : Row :=
  if vendorOk b i then
    match b.downloads i with
    | .ok _ =>
      { url := b.urls.getD i [], filename := mkFilename b i, success := true,
        error := none, timing := some (b.timing i) }
    | .httpError s =>
      { url := b.urls.getD i [], filename := mkFilename b i, success := false,
        error := some ("HTTP ".data ++ natChars s), timing := none }
    | .transportError m =>
      { url := b.urls.getD i [], filename := mkFilename b i, success := false,
        error := some m, timing := none }
  else
    { url := b.urls.getD i [], filename := mkFilename b i, success := false,
      error := some (vendorFailMsg b i), timing := none }

/-- Rows pushed synchronously (vendor-failed items, submission order). -/
def phaseARows (b : BatchRun) : List Row :=
  ((List.range b.n).filter (fun i => !vendorOk b i)).map (rowOf b)

/-- Rows pushed by resumed download tasks, in completion order `sched`. -/
def phaseBRows (b : BatchRun) (sched : List Nat) : List Row :=
  (sched.filter (fun i => vendorOk b i)).map (rowOf b)

/-- Final contents of `results` after `await Promise.all(downloadPromises)`. -/
def bulkResults (b : BatchRun) (sched : List Nat) : List Row :=
  phaseARows b ++ phaseBRows b sched

/-- Image entries added to the archive, in completion order. -/
def zipImages (b : BatchRun) (sched : List Nat) : List (Chars × ZData) :=
  (sched.filter (fun i => vendorOk b i)).foldl
    (fun z i =>
      match b.downloads i with
      | .ok bytes => zipFile z (mkFilename b i) (.image bytes)
      | _ => z)
    []

def successCount (b : BatchRun) (sched : List Nat) : Nat :=
  ((bulkResults b sched).filter (·.success)).length

/-- One per-item entry of the manifest's `Results:` section. -/
def manifestRow (r : Row) : Chars :=
  if r.success then
    "✓ ".data ++ r.url ++ " (".data ++ natChars (r.timing.getD 0) ++
      "ms)\n  → ".data ++ r.filename
  else
    "✗ ".data ++ r.url ++ "\n  → FAILED: ".data ++ r.error.getD []

/-- Per-item manifest entries in the order the rows were accumulated. -/
def manifestRows (b : BatchRun) (sched : List Nat) : List Chars :=
  (bulkResults b sched).map manifestRow

/-- Platform-supplied values interpolated into the response: wall-clock
strings and the two float-formatted figures (`avgTime.toFixed(0)` and the
success-rate percentage), which are opaque to this model. -/
structure BulkEnv where
  genTimeIso : Chars
  totalTimeMs : Nat
  avgTimeStr : Chars
  zipTimestamp : Chars
  successRateStr : Chars

/-- Manifest text `manifestContent`: header, performance and configuration sections,
then one entry per accumulated row. -/
def manifestContent (env : BulkEnv) (mode : Speed) (b : BatchRun)
    (sched : List Nat) : Chars :=
  let config := SPEED_CONFIGS mode
  let results := bulkResults b sched
  let succ := successCount b sched
  List.intercalate ['\n']
    ([ "Screenshot Batch Report".data,
       "Generated: ".data ++ env.genTimeIso,
       "Speed Mode: ".data ++ speedName mode ++ " - ".data ++ config.description,
       [],
       "Performance:".data,
       "- Total URLs: ".data ++ natChars results.length,
       "- Successful: ".data ++ natChars succ,
       "- Failed: ".data ++ natChars (results.length - succ),
       "- Total Time: ".data ++ natChars env.totalTimeMs ++ "ms".data,
       "- Average Time: ".data ++ env.avgTimeStr ++ "ms per screenshot".data,
       [],
       "Configuration:".data,
       "- Wait Strategy: ".data ++ config.wait_until,
       "- Delay: ".data ++ config.delayStr ++ "s".data,
       "- Timeout: ".data ++ natChars config.timeout ++ "ms".data,
       "- Script Blocking: ".data ++
         (if config.block_scripts then "Yes".data else "No".data),
       "- Geolocation: US (GDPR bypass)".data,
       [],
       "Results:".data,
       "--------".data ] ++ manifestRows b sched)

/-- Full archive: image entries then the manifest entry. -/
def bulkZip (env : BulkEnv) (mode : Speed) (b : BatchRun) (sched : List Nat) :
    List (Chars × ZData) :=
  zipFile (zipImages b sched) "manifest.txt".data
    (.text (manifestContent env mode b sched))

inductive BulkResult where
  | errorResp (status : Nat) (error : String)
  | zipResp (entries : List (Chars × ZData)) (headers : List (Chars × Chars))
deriving Repr

/-- Validation stage of the bulk handler (everything before the vendor
call): credential, body shape, emptiness, cap, per-URL validity. -/
def bulkValidate (apiKey : Option String) (urls : Option (List String)) :
    Except (Nat × String) (List String) :=
  match apiKey with
  | none => .error (500, "Screenshot service not configured")
  | some _ =>
    match urls with
    | none => .error (400, "URLs array is required")
    | some us =>
      if us.isEmpty then .error (400, "URLs array is required")
      else if us.length > 20 then
        .error (400, "Maximum 20 URLs allowed per request")
      else
        let invalidUrls := us.filter (fun u => !isValidUrl u)
        if !invalidUrls.isEmpty then
          .error (400, "Invalid URLs: " ++ String.intercalate ", " invalidUrls)
        else .ok us

/-- Result of the one vendor bulk call. -/
inductive VendorBulk where
  | fail (errorText : String)
  | ok (responses : List ItemResponse)

/-- Response headers of the 200 archive response. -/
def bulkHeaders (env : BulkEnv) (mode : Speed) : List (Chars × Chars) :=
  [ ("Access-Control-Allow-Origin".data, "*".data),
    ("Access-Control-Allow-Headers".data,
     "authorization, x-client-info, apikey, content-type".data),
    ("Content-Type".data, "application/zip".data),
    ("Content-Disposition".data,
     "attachment; filename=\"screenshots_".data ++ env.zipTimestamp ++ ".zip\"".data),
    ("X-Processing-Time".data, natChars env.totalTimeMs ++ "ms".data),
    ("X-Success-Rate".data, env.successRateStr ++ "%".data),
    ("X-Speed-Mode".data, speedName mode) ]

/-- The whole bulk-screenshot handler: validation, vendor call, download
fan-out, archive assembly, response.  `sched` is the completion order of
the per-item downloads; everything after validation is reached only when
the vendor call happened, so a validation error is returned identically
for every value of `vendor`. -/
def bulkHandler (apiKey : Option String) (urls : Option (List String))
    (speed : Option Speed) (vendor : VendorBulk)
    (downloads : Nat → DownloadOutcome) (timing : Nat → Nat)
    (sched : List Nat) (env : BulkEnv) : BulkResult :=
  match bulkValidate apiKey urls with
  | .error (s, e) => .errorResp s e
  | .ok us =>
    match vendor with
    | .fail _ => .errorResp 500 "Failed to process screenshots"
    | .ok responses =>
      let mode := chosenSpeed speed
      let b : BatchRun :=
        { urls := us.map String.data, resp := responses,
          downloads := downloads, timing := timing }
      .zipResp (bulkZip env mode b sched) (bulkHeaders env mode)

/-- Indices of vendor-successful items, in submission order; the download
tasks that suspend are exactly these, so a completion schedule is a
permutation of this list. -/
def successIdxs (b : BatchRun) : List Nat :=
  (List.range b.n).filter (fun i => vendorOk b i)

def DownloadOutcome.isOk : DownloadOutcome → Bool
  | .ok _ => true
  | _ => false

def DownloadOutcome.bytesOf : DownloadOutcome → List Nat
  | .ok bs => bs
  | _ => []

/-- Indices whose item is vendor-successful and whose image download
succeeded: exactly these contribute an image entry to the archive. -/
def okDownloadIdxs (b : BatchRun) : List Nat :=
  (successIdxs b).filter (fun i => (b.downloads i).isOk)

/-- A single-column file: one line per list element, `"\n"`-separated,
no trailing newline. -/
def joinNl : List Chars → Chars
  | [] => []
  | [l] => l
  | l :: ls => l ++ '\n' :: joinNl ls

/-! ## Helper lemmas and sanity checks -/

theorem natDigitsAux_zero (fuel : Nat) : natDigitsAux fuel 0 = [] := by
  cases fuel <;> rfl

theorem natDigitsAux_fuel :
    ∀ n fuel fuel', n ≤ fuel → n ≤ fuel' → natDigitsAux fuel n = natDigitsAux fuel' n := by
  intro n
  induction n using Nat.strong_induction_on with
  | _ n ih =>
    intro fuel fuel' h h'
    match n, fuel, fuel', h, h' with
    | 0, fuel, fuel', _, _ => rw [natDigitsAux_zero, natDigitsAux_zero]
    | m + 1, f + 1, f' + 1, h, h' =>
      simp only [natDigitsAux]
      have hd : (m + 1) / 10 < m + 1 := Nat.div_lt_self (Nat.succ_pos m) (by omega)
      rw [ih ((m + 1) / 10) hd f f' (by omega) (by omega)]

theorem natDigits_succ (n : Nat) :
    natDigits (n + 1) = ((n + 1) % 10) :: natDigits ((n + 1) / 10) := by
  have hd : (n + 1) / 10 ≤ n := by omega
  simp only [natDigits, natDigitsAux]
  exact congrArg _ (natDigitsAux_fuel ((n + 1) / 10) n ((n + 1) / 10) hd (le_refl _))

theorem digitsVal_natDigits (n : Nat) : digitsVal (natDigits n) = n := by
  induction n using Nat.strong_induction_on with
  | _ n ih =>
    match n with
    | 0 => rfl
    | n + 1 =>
      rw [natDigits_succ, digitsVal,
        ih ((n + 1) / 10) (Nat.div_lt_self (Nat.succ_pos n) (by omega))]
      omega

theorem natDigits_lt (n : Nat) : ∀ d ∈ natDigits n, d < 10 := by
  induction n using Nat.strong_induction_on with
  | _ n ih =>
    match n with
    | 0 => intro d hd; simp [natDigits, natDigitsAux] at hd
    | n + 1 =>
      rw [natDigits_succ]
      intro d hd
      rcases List.mem_cons.mp hd with h | h
      · omega
      · exact ih ((n + 1) / 10) (Nat.div_lt_self (Nat.succ_pos n) (by omega)) d h

theorem natDigits_ne_nil (n : Nat) (h : 0 < n) : natDigits n ≠ [] := by
  match n, h with
  | n + 1, _ => rw [natDigits_succ]; exact List.cons_ne_nil _ _

theorem chVal_digitCh {d : Nat} (h : d < 10) : chVal (digitCh d) = d := by
  interval_cases d <;> decide

theorem isDigit_digitCh {d : Nat} (h : d < 10) : (digitCh d).isDigit = true := by
  interval_cases d <;> decide

theorem natChars_digits (n : Nat) : ∀ c ∈ natChars n, c.isDigit = true := by
  intro c hc
  by_cases h : n = 0
  · subst h; simp [natChars] at hc; subst hc; decide
  · simp only [natChars, if_neg h, List.mem_reverse, List.mem_map] at hc
    obtain ⟨d, hd, rfl⟩ := hc
    exact isDigit_digitCh (natDigits_lt n d hd)

theorem natChars_ne_nil (n : Nat) : natChars n ≠ [] := by
  by_cases h : n = 0
  · subst h; simp [natChars]
  · simp only [natChars, if_neg h]
    intro hrev
    exact natDigits_ne_nil n (Nat.pos_of_ne_zero h)
      (List.map_eq_nil_iff.mp (List.reverse_eq_nil_iff.mp hrev))

theorem charsVal_natChars (n : Nat) : charsVal (natChars n) = n := by
  by_cases h : n = 0
  · subst h; rfl
  · simp only [natChars, if_neg h, charsVal, List.reverse_reverse, List.map_map]
    have : ∀ l : List Nat, (∀ d ∈ l, d < 10) →
        digitsVal (l.map (chVal ∘ digitCh)) = digitsVal l := by
      intro l hl
      induction l with
      | nil => rfl
      | cons d ds ihl =>
        simp only [List.map_cons, digitsVal, Function.comp_apply,
          chVal_digitCh (hl d (List.mem_cons_self d ds)),
          ihl (fun x hx => hl x (List.mem_cons_of_mem d hx))]
    rw [this (natDigits n) (natDigits_lt n), digitsVal_natDigits]

theorem natChars_injective {m n : Nat} (h : natChars m = natChars n) : m = n := by
  have := congrArg charsVal h
  rwa [charsVal_natChars, charsVal_natChars] at this

example : isValidUrl "https://x.com" = true := by decide
example : isValidUrl "http://x.com" = true := by decide
example : isValidUrl "not a url" = false := by decide
example : isValidUrl "ftp://x.com" = false := by decide
example : isValidUrl "" = false := by decide
example : isValidUrl "//x.com" = false := by decide
example : isValidUrl "javascript:alert(1)" = false := by decide
example : isValidUrl "HTTPS://x.com" = true := by decide
example : isValidUrl "https://a.com/x,y" = true := by decide
example : isValidUrl "https://a.com/x'" = true := by decide
example : sanitizeFilename "https://a.com" = "a_com_" := by decide
example : sanitizeFilename "https://a.com/p/q" = "a_com_p_q" := by decide
example : parseCSVForUrls "https://a.com\nhttps://a.com" = ["https://a.com"] := by decide
example : parseCSVForUrls "https://a.com, \"https://b.org\"\nnope" =
    ["https://a.com", "https://b.org"] := by decide
example : parseCSVForUrls "https://a.com/x,y" = ["https://a.com/x"] := by decide
example : parseCSVForUrls "https://a.com/x'" = ["https://a.com/x"] := by decide

/-! ## Claims -/

/-- Claim C6: For every string, the URL Validator accepts it if and only if
the string parses as a URL and its scheme is exactly `http` or `https`;
consequently `"not a url"` and `"ftp://x.com"` are rejected and
`"https://x.com"` is accepted, and empty strings, scheme-relative URLs,
and non-HTTP schemes are rejected. -/
theorem C6_validator_iff_parse_and_http_scheme :
    (∀ s : String, isValidUrl s = true ↔
      ∃ u, parseURL s.data = some u ∧
        (u.scheme = "http".data ∨ u.scheme = "https".data)) ∧
    isValidUrl "not a url" = false ∧
    isValidUrl "ftp://x.com" = false ∧
    isValidUrl "https://x.com" = true ∧
    isValidUrl "" = false ∧
    isValidUrl "//x.com" = false ∧
    isValidUrl "javascript:alert(1)" = false ∧
    isValidUrl "mailto:a@b.com" = false := by
  refine ⟨?_, by decide, by decide, by decide, by decide, by decide, by decide, by decide⟩
  intro s
  unfold isValidUrl isValidUrlChars
  cases h : parseURL s.data with
  | none => simp
  | some u => simp [h]

/-- Claim C2: The bulk-screenshot handler rejects a batch wholesale, with a
400 error and independently of the vendor call (so before any vendor
call), whenever the URL list is empty, the count exceeds 20, or any URL
fails the Validator; in the invalid-URL case the error names the
offending URL(s).  The rejection is the same for every vendor outcome,
download outcome and schedule, i.e. nothing after validation is
consulted. -/
theorem C2_bulk_rejects_invalid_batches (key : String) (us : List String)
    (speed : Option Speed) (vendor : VendorBulk)
    (downloads : Nat → DownloadOutcome) (timing : Nat → Nat)
    (sched : List Nat) (env : BulkEnv) :
    (us = [] →
      bulkHandler (some key) (some us) speed vendor downloads timing sched env =
        .errorResp 400 "URLs array is required") ∧
    (us.length > 20 →
      bulkHandler (some key) (some us) speed vendor downloads timing sched env =
        .errorResp 400 "Maximum 20 URLs allowed per request") ∧
    ((us.filter (fun u => !isValidUrl u)) ≠ [] → us.length ≤ 20 → us ≠ [] →
      bulkHandler (some key) (some us) speed vendor downloads timing sched env =
        .errorResp 400
          ("Invalid URLs: " ++
            String.intercalate ", " (us.filter (fun u => !isValidUrl u)))) := by
  refine ⟨?_, ?_, ?_⟩
  · intro h; subst h; rfl
  · intro h
    have hne : us.isEmpty = false := by
      cases us with
      | nil => simp at h
      | cons a t => rfl
    simp [bulkHandler, bulkValidate, hne, h]
  · intro hinv hlen hne
    have hne' : us.isEmpty = false := by
      cases us with
      | nil => exact absurd rfl hne
      | cons a t => rfl
    have hlen' : ¬ us.length > 20 := by omega
    simp [bulkHandler, bulkValidate, hne', hlen', hinv]

/-- Witness for C2: a batch of 21 valid URLs is rejected with the
capacity error for every vendor outcome (so with zero vendor calls), and
a batch containing one malformed URL is rejected naming it. -/
theorem C2_bulk_rejects_invalid_batches_witness :
    (List.replicate 21 "https://x.com").length > 20 ∧
    bulkHandler (some "k") (some (List.replicate 21 "https://x.com")) none
        (.fail "never called") (fun _ => .ok []) (fun _ => 0) []
        ⟨[], 0, [], [], []⟩ =
      .errorResp 400 "Maximum 20 URLs allowed per request" ∧
    (["https://a.com", "nope"].filter (fun u => !isValidUrl u)) ≠ [] ∧
    bulkHandler (some "k") (some ["https://a.com", "nope"]) none
        (.fail "never called") (fun _ => .ok []) (fun _ => 0) []
        ⟨[], 0, [], [], []⟩ =
      .errorResp 400 "Invalid URLs: nope" := by
  have h21 : (List.replicate 21 "https://x.com").length > 20 := by decide
  have hcap := (C2_bulk_rejects_invalid_batches "k" (List.replicate 21 "https://x.com")
    none (.fail "never called") (fun _ => .ok []) (fun _ => 0) []
    ⟨[], 0, [], [], []⟩).2.1 h21
  have hinv : (["https://a.com", "nope"].filter (fun u => !isValidUrl u)) ≠ [] := by decide
  have hbad := (C2_bulk_rejects_invalid_batches "k" ["https://a.com", "nope"]
    none (.fail "never called") (fun _ => .ok []) (fun _ => 0) []
    ⟨[], 0, [], [], []⟩).2.2 hinv (by decide) (by decide)
  refine ⟨h21, hcap, hinv, ?_⟩
  rw [hbad]
  congr 1

/-- Claim C9: When the bulk request body omits the optional `speed` field,
the handler uses the `"fast"` preset (`wait_until` domcontentloaded,
0.5 s delay, no script blocking, 8000 ms timeout) and reports it in the
`X-Speed-Mode` response header — not the `"balanced"` preset whose
description labels it the default. -/
theorem C9_omitted_speed_defaults_to_fast (key : String) (us : List String)
    (rs : List ItemResponse) (downloads : Nat → DownloadOutcome)
    (timing : Nat → Nat) (sched : List Nat) (env : BulkEnv)
    (hne : us ≠ []) (hlen : us.length ≤ 20)
    (hval : us.filter (fun u => !isValidUrl u) = []) :
    chosenSpeed none = Speed.fast ∧
    (SPEED_CONFIGS .fast).wait_until = "domcontentloaded".data ∧
    (SPEED_CONFIGS .fast).delay = 1 / 2 ∧
    (SPEED_CONFIGS .fast).block_scripts = false ∧
    (SPEED_CONFIGS .fast).timeout = 8000 ∧
    (SPEED_CONFIGS .balanced).description =
      "Screenshot in 2-3s, balanced approach (DEFAULT)".data ∧
    Speed.fast ≠ Speed.balanced ∧
    bulkHandler (some key) (some us) none (.ok rs) downloads timing sched env =
      .zipResp
        (bulkZip env .fast ⟨us.map String.data, rs, downloads, timing⟩ sched)
        (bulkHeaders env .fast) ∧
    ("X-Speed-Mode".data, "fast".data) ∈ bulkHeaders env .fast := by
  have hne' : us.isEmpty = false := by
    cases us with
    | nil => exact absurd rfl hne
    | cons a t => rfl
  have hlen' : ¬ us.length > 20 := by omega
  refine ⟨rfl, rfl, by norm_num [SPEED_CONFIGS], rfl, rfl, rfl, by decide, ?_, ?_⟩
  · simp [bulkHandler, bulkValidate, hne', hlen', hval, chosenSpeed]
  · simp [bulkHeaders, speedName]

/-- Witness for C9: a concrete one-URL batch with `speed` omitted. -/
theorem C9_omitted_speed_defaults_to_fast_witness :
    chosenSpeed none = Speed.fast ∧
    bulkHandler (some "k") (some ["https://x.com"]) none (.ok []) (fun _ => .ok [])
        (fun _ => 0) [] ⟨[], 0, [], [], []⟩ =
      .zipResp
        (bulkZip ⟨[], 0, [], [], []⟩ .fast
          ⟨["https://x.com"].map String.data, [], fun _ => .ok [], fun _ => 0⟩ [])
        (bulkHeaders ⟨[], 0, [], [], []⟩ .fast) := by
  have h := C9_omitted_speed_defaults_to_fast "k" ["https://x.com"] []
    (fun _ => .ok []) (fun _ => 0) [] ⟨[], 0, [], [], []⟩
    (by decide) (by decide) (by decide)
  exact ⟨h.1, h.2.2.2.2.2.2.2.1⟩

/-- Claim C5, counterexample: The claim says that for every input string
failing URL validation the Single-Screenshot Requester returns an
immediate failure "without making any network attempt".  On the code,
the client `generateScreenshot` performs no re-validation: with the
client configured, the invalid input `"not a url"` still produces one
network call (the fetch to the edge function); the failure comes back
from the server's validation. -/
theorem C5_counterexample_client_calls_network_on_invalid_url :
    isValidUrl "not a url" = false ∧
    (generateScreenshot (some ⟨"u", "k"⟩) (some "key") false "not a url").2 =
      [NetCall.edgeScreenshot "not a url"] ∧
    (generateScreenshot (some ⟨"u", "k"⟩) (some "key") false "not a url").2 ≠ [] ∧
    (generateScreenshot (some ⟨"u", "k"⟩) (some "key") false "not a url").1 =
      .failure "Invalid URL format" := by
  refine ⟨by decide, ?_, ?_, ?_⟩ <;> decide

/-- Claim C5, amended: Re-validation of the URL happens in the serverless
handler, not in the client: for every string that fails URL validation,
the configured client issues exactly one network call — to the edge
function, never to the vendor — and the edge handler rejects the URL
with a 400 `"Invalid URL format"` error before constructing any vendor
URL, which the client surfaces as a failure result. -/
theorem C5_revalidation_happens_server_side (cfg : SupabaseConfig) (key url : String)
    (hinvalid : isValidUrl url = false) (hne : url ≠ "") :
    screenshotServe "POST" (some key) (some url) = .err 400 "Invalid URL format" ∧
    (generateScreenshot (some cfg) (some key) false url).1 =
      .failure "Invalid URL format" ∧
    (generateScreenshot (some cfg) (some key) false url).2 =
      [.edgeScreenshot url] := by
  have hserve : screenshotServe "POST" (some key) (some url) =
      .err 400 "Invalid URL format" := by
    simp [screenshotServe, hne, hinvalid]
  refine ⟨hserve, ?_, ?_⟩
  · simp [generateScreenshot, hserve]
  · simp [generateScreenshot, hserve]

/-- Witness for C5 (amended), at the invalid input `"ftp://x.com"`. -/
theorem C5_revalidation_happens_server_side_witness :
    isValidUrl "ftp://x.com" = false ∧
    screenshotServe "POST" (some "key") (some "ftp://x.com") =
      .err 400 "Invalid URL format" ∧
    (generateScreenshot (some ⟨"u", "k"⟩) (some "key") false "ftp://x.com").1 =
      .failure "Invalid URL format" := by
  have h := C5_revalidation_happens_server_side ⟨"u", "k"⟩ "key" "ftp://x.com"
    (by decide) (by decide)
  exact ⟨by decide, h.1, h.2.1⟩

/-- Claim C8, counterexample: The claim says the CSV URL Extractor takes a
maximum accepted count and truncates its returned list to that maximum.
`parseCSVForUrls` takes no maximum and does not truncate: on a
single-column file of 21 valid unique URLs it returns all 21. -/
theorem C8_counterexample_extractor_returns_21 :
    (parseCSVForUrls "https://a.com\nhttps://b.com\nhttps://c.com\nhttps://d.com\nhttps://e.com\nhttps://f.com\nhttps://g.com\nhttps://h.com\nhttps://i.com\nhttps://j.com\nhttps://k.com\nhttps://l.com\nhttps://m.com\nhttps://n.com\nhttps://o.com\nhttps://p.com\nhttps://q.com\nhttps://r.com\nhttps://s.com\nhttps://t.com\nhttps://u.com").length = 21 ∧
    20 < (parseCSVForUrls "https://a.com\nhttps://b.com\nhttps://c.com\nhttps://d.com\nhttps://e.com\nhttps://f.com\nhttps://g.com\nhttps://h.com\nhttps://i.com\nhttps://j.com\nhttps://k.com\nhttps://l.com\nhttps://m.com\nhttps://n.com\nhttps://o.com\nhttps://p.com\nhttps://q.com\nhttps://r.com\nhttps://s.com\nhttps://t.com\nhttps://u.com").length := by
  refine ⟨by decide, by decide⟩

/-- Claim C8, amended: The extractor itself takes only the raw text and
returns every extracted URL; the fixed maximum of 20 is applied by its
caller `handleFileSelect`, which truncates the list with
`slice(0, 20)`, signals found-versus-accepted through an error message
stating the found count and the cap, and passes the truncated list on. -/
theorem C8_truncation_and_signal_in_caller (name content : String)
    (hcsv : ".csv".data.isSuffixOf name.data = true)
    (hover : 20 < (parseCSVForUrls content).length) :
    handleFileSelect name content =
      { error := some ("Found " ++ natStr (parseCSVForUrls content).length ++
          " URLs. Maximum 20 allowed per request."),
        urls := (parseCSVForUrls content).take 20,
        extracted := some ((parseCSVForUrls content).take 20) } ∧
    (handleFileSelect name content).urls.length = 20 := by
  have hne : (parseCSVForUrls content).length ≠ 0 := by omega
  have h : handleFileSelect name content =
      { error := some ("Found " ++ natStr (parseCSVForUrls content).length ++
          " URLs. Maximum 20 allowed per request."),
        urls := (parseCSVForUrls content).take 20,
        extracted := some ((parseCSVForUrls content).take 20) } := by
    simp [handleFileSelect, hcsv, hne, hover]
  refine ⟨h, ?_⟩
  rw [h]
  simp only [List.length_take]
  omega

/-- Witness for C8 (amended): a 21-URL CSV file is truncated to 20 and
the error message reports the found count. -/
theorem C8_truncation_and_signal_in_caller_witness :
    (".csv".data.isSuffixOf "urls.csv".data = true) ∧
    20 < (parseCSVForUrls "https://a.com\nhttps://b.com\nhttps://c.com\nhttps://d.com\nhttps://e.com\nhttps://f.com\nhttps://g.com\nhttps://h.com\nhttps://i.com\nhttps://j.com\nhttps://k.com\nhttps://l.com\nhttps://m.com\nhttps://n.com\nhttps://o.com\nhttps://p.com\nhttps://q.com\nhttps://r.com\nhttps://s.com\nhttps://t.com\nhttps://u.com").length ∧
    (handleFileSelect "urls.csv" "https://a.com\nhttps://b.com\nhttps://c.com\nhttps://d.com\nhttps://e.com\nhttps://f.com\nhttps://g.com\nhttps://h.com\nhttps://i.com\nhttps://j.com\nhttps://k.com\nhttps://l.com\nhttps://m.com\nhttps://n.com\nhttps://o.com\nhttps://p.com\nhttps://q.com\nhttps://r.com\nhttps://s.com\nhttps://t.com\nhttps://u.com").urls.length = 20 ∧
    (handleFileSelect "urls.csv" "https://a.com\nhttps://b.com\nhttps://c.com\nhttps://d.com\nhttps://e.com\nhttps://f.com\nhttps://g.com\nhttps://h.com\nhttps://i.com\nhttps://j.com\nhttps://k.com\nhttps://l.com\nhttps://m.com\nhttps://n.com\nhttps://o.com\nhttps://p.com\nhttps://q.com\nhttps://r.com\nhttps://s.com\nhttps://t.com\nhttps://u.com").error =
      some "Found 21 URLs. Maximum 20 allowed per request." := by
  have h := C8_truncation_and_signal_in_caller "urls.csv" "https://a.com\nhttps://b.com\nhttps://c.com\nhttps://d.com\nhttps://e.com\nhttps://f.com\nhttps://g.com\nhttps://h.com\nhttps://i.com\nhttps://j.com\nhttps://k.com\nhttps://l.com\nhttps://m.com\nhttps://n.com\nhttps://o.com\nhttps://p.com\nhttps://q.com\nhttps://r.com\nhttps://s.com\nhttps://t.com\nhttps://u.com"
    (by decide) (by decide)
  refine ⟨by decide, by decide, h.2, ?_⟩
  rw [h.1]
  congr 1

theorem keys_mapSet (m : List (String × ScreenshotResult)) (k : String)
    (v : ScreenshotResult) :
    (mapSet m k v).map Prod.fst =
      if m.any (·.1 == k) then m.map Prod.fst else m.map Prod.fst ++ [k] := by
  unfold mapSet
  split
  · rw [List.map_map]
    apply List.map_congr_left
    intro e _
    by_cases h : e.1 = k
    · simp [h]
    · simp [Function.comp, h]
  · simp

theorem mem_keys_mapSet (m : List (String × ScreenshotResult)) (k a : String)
    (v : ScreenshotResult) :
    a ∈ (mapSet m k v).map Prod.fst ↔ a ∈ m.map Prod.fst ∨ a = k := by
  rw [keys_mapSet]
  split
  · next hany =>
    obtain ⟨e, he, hek⟩ := List.any_eq_true.mp hany
    have hk : k ∈ m.map Prod.fst :=
      List.mem_map.mpr ⟨e, he, beq_iff_eq.mp hek⟩
    constructor
    · exact fun h => Or.inl h
    · rintro (h | rfl)
      · exact h
      · exact hk
  · simp

theorem nodup_keys_mapSet (m : List (String × ScreenshotResult)) (k : String)
    (v : ScreenshotResult) (h : (m.map Prod.fst).Nodup) :
    ((mapSet m k v).map Prod.fst).Nodup := by
  rw [keys_mapSet]
  split
  · exact h
  · next hany =>
    have hk : k ∉ m.map Prod.fst := by
      intro hmem
      obtain ⟨e, he, hek⟩ := List.mem_map.mp hmem
      exact hany (List.any_eq_true.mpr ⟨e, he, beq_iff_eq.mpr hek⟩)
    simp [List.nodup_append, h, hk]

theorem nodup_keys_batchFold (urls : List String) (resultAt : Nat → ScreenshotResult) :
    ∀ (s : List Nat) (m : List (String × ScreenshotResult)),
      (m.map Prod.fst).Nodup →
      ((s.foldl (batchStep urls resultAt) m).map Prod.fst).Nodup := by
  intro s
  induction s with
  | nil => intro m h; exact h
  | cons i t ih =>
    intro m h
    exact ih (batchStep urls resultAt m i) (nodup_keys_mapSet _ _ _ h)

theorem mem_keys_batchFold (urls : List String) (resultAt : Nat → ScreenshotResult) :
    ∀ (s : List Nat) (m : List (String × ScreenshotResult)) (a : String),
      a ∈ (s.foldl (batchStep urls resultAt) m).map Prod.fst ↔
        a ∈ m.map Prod.fst ∨ ∃ i ∈ s, urls.getD i "" = a := by
  intro s
  induction s with
  | nil => intro m a; simp
  | cons i t ih =>
    intro m a
    rw [List.foldl_cons, ih]
    unfold batchStep
    rw [mem_keys_mapSet]
    constructor
    · rintro ((h | h) | ⟨j, hj, rfl⟩)
      · exact Or.inl h
      · exact Or.inr ⟨i, List.mem_cons_self i t, h.symm⟩
      · exact Or.inr ⟨j, List.mem_cons_of_mem i hj, rfl⟩
    · rintro (h | ⟨j, hj, rfl⟩)
      · exact Or.inl (Or.inl h)
      · rcases List.mem_cons.mp hj with rfl | hj
        · exact Or.inl (Or.inr rfl)
        · exact Or.inr ⟨j, hj, rfl⟩

theorem mem_keys_batchRun (urls : List String)
    (resultAt : Nat → ScreenshotResult) (s : List Nat) (a : String) :
    a ∈ (batchRun urls resultAt s).map Prod.fst ↔
      a ∈ s.map (fun i => urls.getD i "") := by
  have h := mem_keys_batchFold urls resultAt s [] a
  unfold batchRun
  rw [h]
  simp

theorem batchRun_keys_perm_dedup (urls : List String)
    (resultAt : Nat → ScreenshotResult) (s : List Nat) :
    ((batchRun urls resultAt s).map Prod.fst).Perm
      ((s.map (fun i => urls.getD i "")).dedup) := by
  apply (List.perm_ext_iff_of_nodup
    (nodup_keys_batchFold urls resultAt s [] (by simp))
    (List.nodup_dedup _)).mpr
  intro a
  rw [List.mem_dedup]
  exact mem_keys_batchRun urls resultAt s a

theorem batchRun_length (urls : List String)
    (resultAt : Nat → ScreenshotResult) (s : List Nat) :
    (batchRun urls resultAt s).length =
      ((s.map (fun i => urls.getD i "")).dedup).length := by
  have h := (batchRun_keys_perm_dedup urls resultAt s).length_eq
  simpa using h

theorem map_getD_range (urls : List String) :
    (List.range urls.length).map (fun i => urls.getD i "") = urls := by
  apply List.ext_getElem (by simp)
  intro i h1 h2
  simp [List.getD_eq_getElem?_getD, List.getElem?_eq_getElem h2]

/-- Claim C10: `generateScreenshotsBatch` keys its result map by URL: for
every input list and every completion order, the returned map has
exactly one entry per distinct URL — duplicates collapse, the map's size
equals the number of distinct URLs (hence can be smaller than the input
length), and each `completed` count passed to `onProgress` is the number
of distinct URLs among the calls settled so far, not the number of
calls. -/
theorem C10_batch_map_keyed_by_url (urls : List String)
    (resultAt : Nat → ScreenshotResult) (sched : List Nat)
    (hperm : sched.Perm (List.range urls.length)) :
    ((batchRun urls resultAt sched).map Prod.fst).Nodup ∧
    (∀ a, a ∈ (batchRun urls resultAt sched).map Prod.fst ↔ a ∈ urls) ∧
    (batchRun urls resultAt sched).length = urls.dedup.length ∧
    (batchRun urls resultAt sched).length ≤ urls.length ∧
    (∀ k, k < sched.length →
      (batchProgress urls resultAt sched).getD k 0 =
        (((sched.take (k + 1)).map (fun i => urls.getD i "")).dedup).length) := by
  have hmapped : (sched.map (fun i => urls.getD i "")).Perm urls := by
    have := hperm.map (fun i => urls.getD i "")
    rwa [map_getD_range] at this
  have hlen : (batchRun urls resultAt sched).length = urls.dedup.length := by
    rw [batchRun_length]
    exact hmapped.dedup.length_eq
  refine ⟨nodup_keys_batchFold urls resultAt sched [] (by simp), ?_, hlen, ?_, ?_⟩
  · intro a
    rw [mem_keys_batchRun]
    exact hmapped.mem_iff
  · rw [hlen]
    exact List.Sublist.length_le (List.dedup_sublist urls)
  · intro k hk
    unfold batchProgress
    rw [List.getD_eq_getElem?_getD, List.getElem?_map, List.getElem?_range hk]
    simp [batchRun_length]

/-- Witness for C10: three calls over two distinct URLs (one duplicated)
yield a map of size 2 < 3, for an out-of-order completion schedule. -/
theorem C10_batch_map_keyed_by_url_witness :
    ([2, 0, 1] : List Nat).Perm
      (List.range (["https://a.com", "https://a.com", "https://b.com"] : List String).length) ∧
    (batchRun ["https://a.com", "https://a.com", "https://b.com"]
        (fun _ => .success "s") [2, 0, 1]).length =
      (["https://a.com", "https://a.com", "https://b.com"] : List String).dedup.length ∧
    (["https://a.com", "https://a.com", "https://b.com"] : List String).dedup.length = 2 := by
  have hperm : ([2, 0, 1] : List Nat).Perm
      (List.range (["https://a.com", "https://a.com", "https://b.com"] : List String).length) := by
    decide
  have h := C10_batch_map_keyed_by_url
    ["https://a.com", "https://a.com", "https://b.com"] (fun _ => .success "s")
    [2, 0, 1] hperm
  exact ⟨hperm, h.2.2.1, by decide⟩

theorem sched_all_vendorOk (b : BatchRun) (sched : List Nat)
    (hperm : sched.Perm (successIdxs b)) :
    ∀ i ∈ sched, vendorOk b i = true := by
  intro i hi
  have : i ∈ successIdxs b := hperm.mem_iff.mp hi
  exact (List.mem_filter.mp this).2

theorem bulkResults_eq_of_perm (b : BatchRun) (sched : List Nat)
    (hperm : sched.Perm (successIdxs b)) :
    bulkResults b sched = phaseARows b ++ sched.map (rowOf b) := by
  unfold bulkResults phaseBRows
  rw [List.filter_eq_self.mpr (sched_all_vendorOk b sched hperm)]

theorem bulkResults_perm (b : BatchRun) (sched : List Nat)
    (hperm : sched.Perm (successIdxs b)) :
    (bulkResults b sched).Perm ((List.range b.n).map (rowOf b)) := by
  rw [bulkResults_eq_of_perm b sched hperm]
  have h1 : (sched.map (rowOf b)).Perm ((successIdxs b).map (rowOf b)) :=
    hperm.map (rowOf b)
  have h2 : (phaseARows b ++ sched.map (rowOf b)).Perm
      (phaseARows b ++ (successIdxs b).map (rowOf b)) :=
    List.Perm.append_left _ h1
  refine h2.trans ?_
  unfold phaseARows successIdxs
  rw [← List.map_append]
  apply List.Perm.map
  have h3 := List.filter_append_perm (fun i => !vendorOk b i) (List.range b.n)
  simpa using h3

/-- Claim C1, counterexample: The claim says reordering download completions
never changes the manifest's line order.  On the code, `results` rows are
appended by the concurrent download tasks in completion order: for a
2-item batch in which both items render and download successfully,
completion order `[0, 1]` and completion order `[1, 0]` produce the
per-item manifest lines (and report rows) in different orders. -/
theorem C1_counterexample_completion_order_changes_manifest :
    ([0, 1] : List Nat).Perm (successIdxs
      ⟨["https://a.com".data, "https://b.com".data],
       [⟨"i1".data, some ⟨true, 200, "OK".data, none⟩⟩,
        ⟨"i2".data, some ⟨true, 200, "OK".data, none⟩⟩],
       fun _ => .ok [0], fun _ => 5⟩) ∧
    ([1, 0] : List Nat).Perm (successIdxs
      ⟨["https://a.com".data, "https://b.com".data],
       [⟨"i1".data, some ⟨true, 200, "OK".data, none⟩⟩,
        ⟨"i2".data, some ⟨true, 200, "OK".data, none⟩⟩],
       fun _ => .ok [0], fun _ => 5⟩) ∧
    manifestRows
      ⟨["https://a.com".data, "https://b.com".data],
       [⟨"i1".data, some ⟨true, 200, "OK".data, none⟩⟩,
        ⟨"i2".data, some ⟨true, 200, "OK".data, none⟩⟩],
       fun _ => .ok [0], fun _ => 5⟩ [0, 1] ≠
    manifestRows
      ⟨["https://a.com".data, "https://b.com".data],
       [⟨"i1".data, some ⟨true, 200, "OK".data, none⟩⟩,
        ⟨"i2".data, some ⟨true, 200, "OK".data, none⟩⟩],
       fun _ => .ok [0], fun _ => 5⟩ [1, 0] := by
  refine ⟨by decide, by decide, by decide⟩

/-- Claim C1, amended: Each report row's content is keyed by the item's
submission index (URL, filename and outcome are a function of the index
alone), and the multiset of manifest lines is completion-order
independent — the rows are a permutation of one index-ordered row per
item — but the line ORDER follows completion: vendor-failed items come
first in submission order, then vendor-successful items in download
completion order, so reordering completions can reorder the manifest's
per-item lines. -/
theorem C1_rows_indexed_order_by_completion (b : BatchRun) (sched : List Nat)
    (hperm : sched.Perm (successIdxs b)) :
    bulkResults b sched = phaseARows b ++ sched.map (rowOf b) ∧
    (bulkResults b sched).Perm ((List.range b.n).map (rowOf b)) ∧
    (manifestRows b sched).Perm ((List.range b.n).map (fun i => manifestRow (rowOf b i))) := by
  refine ⟨bulkResults_eq_of_perm b sched hperm, bulkResults_perm b sched hperm, ?_⟩
  unfold manifestRows
  have h := (bulkResults_perm b sched hperm).map manifestRow
  rwa [List.map_map] at h

/-- Witness for C1 (amended), at a concrete 2-item batch with reversed
completion order. -/
theorem C1_rows_indexed_order_by_completion_witness :
    ([1, 0] : List Nat).Perm (successIdxs
      ⟨["https://a.com".data, "https://b.com".data],
       [⟨"i1".data, some ⟨true, 200, "OK".data, none⟩⟩,
        ⟨"i2".data, some ⟨true, 200, "OK".data, none⟩⟩],
       fun _ => .ok [0], fun _ => 5⟩) ∧
    (bulkResults
      ⟨["https://a.com".data, "https://b.com".data],
       [⟨"i1".data, some ⟨true, 200, "OK".data, none⟩⟩,
        ⟨"i2".data, some ⟨true, 200, "OK".data, none⟩⟩],
       fun _ => .ok [0], fun _ => 5⟩ [1, 0]).Perm
      ((List.range 2).map (rowOf
        ⟨["https://a.com".data, "https://b.com".data],
         [⟨"i1".data, some ⟨true, 200, "OK".data, none⟩⟩,
          ⟨"i2".data, some ⟨true, 200, "OK".data, none⟩⟩],
         fun _ => .ok [0], fun _ => 5⟩)) := by
  have hp : ([1, 0] : List Nat).Perm (successIdxs
      ⟨["https://a.com".data, "https://b.com".data],
       [⟨"i1".data, some ⟨true, 200, "OK".data, none⟩⟩,
        ⟨"i2".data, some ⟨true, 200, "OK".data, none⟩⟩],
       fun _ => .ok [0], fun _ => 5⟩) := by decide
  exact ⟨hp, (C1_rows_indexed_order_by_completion _ [1, 0] hp).2.1⟩

theorem takeWhile_append_all {p : Char → Bool} {l1 l2 : Chars}
    (h : ∀ c ∈ l1, p c = true) :
    (l1 ++ l2).takeWhile p = l1 ++ l2.takeWhile p := by
  induction l1 with
  | nil => simp
  | cons c t ih =>
    rw [List.cons_append, List.takeWhile_cons, h c (List.mem_cons_self c t)]
    simp [ih (fun x hx => h x (List.mem_cons_of_mem c hx))]

/-- Two filenames of the form `stem ++ "_" ++ decimal ++ ".png"` agree only
when their decimal ordinal parts agree: the digit run right before the
`".png"` suffix is delimited on its left by the non-digit `'_'`. -/
theorem natSuffix_inj {s t : Chars} {m n : Nat}
    (h : s ++ "_".data ++ natChars m ++ ".png".data =
         t ++ "_".data ++ natChars n ++ ".png".data) : m = n := by
  have h1 : s ++ "_".data ++ natChars m = t ++ "_".data ++ natChars n :=
    List.append_cancel_right h
  have h2 := congrArg List.reverse h1
  rw [List.reverse_append, List.reverse_append, List.reverse_append,
    List.reverse_append] at h2
  have hdm : ∀ c ∈ (natChars m).reverse, c.isDigit = true := by
    intro c hc; exact natChars_digits m c (List.mem_reverse.mp hc)
  have hdn : ∀ c ∈ (natChars n).reverse, c.isDigit = true := by
    intro c hc; exact natChars_digits n c (List.mem_reverse.mp hc)
  have h3 := congrArg (List.takeWhile Char.isDigit) h2
  rw [takeWhile_append_all hdm, takeWhile_append_all hdn] at h3
  have hrev : "_".data.reverse = ['_'] := by decide
  have hstop : ∀ (r : Chars),
      List.takeWhile Char.isDigit (('_' : Char) :: r) = [] := by
    intro r
    simp [List.takeWhile_cons]
  rw [hrev, List.cons_append, List.cons_append, hstop, hstop,
    List.append_nil, List.append_nil] at h3
  exact natChars_injective (List.reverse_injective h3)

theorem mkFilename_inj (b : BatchRun) {i j : Nat}
    (h : mkFilename b i = mkFilename b j) : i = j := by
  unfold mkFilename at h
  have := natSuffix_inj h
  omega

theorem zipFile_of_fresh (entries : List (Chars × ZData)) (name : Chars)
    (d : ZData) (h : ∀ e ∈ entries, e.1 ≠ name) :
    zipFile entries name d = entries ++ [(name, d)] := by
  unfold zipFile
  have hany : entries.any (·.1 == name) = false := by
    rw [List.any_eq_false]
    intro e he
    simpa using h e he
  rw [hany]
  simp

theorem zipImages_fold_eq (b : BatchRun) :
    ∀ (l : List Nat) (acc : List (Chars × ZData)),
      (((l.filter (fun i => (b.downloads i).isOk)).map (fun i => mkFilename b i)).Nodup) →
      (∀ i ∈ l, (b.downloads i).isOk = true → ∀ e ∈ acc, e.1 ≠ mkFilename b i) →
      l.foldl (fun z i =>
          match b.downloads i with
          | .ok bytes => zipFile z (mkFilename b i) (.image bytes)
          | _ => z) acc =
        acc ++ (l.filter (fun i => (b.downloads i).isOk)).map
          (fun i => (mkFilename b i, ZData.image (b.downloads i).bytesOf)) := by
  intro l
  induction l with
  | nil => intro acc _ _; simp
  | cons i t ih =>
    intro acc hnd hfresh
    rw [List.foldl_cons]
    cases hdl : b.downloads i with
    | ok bytes =>
      have hok : (b.downloads i).isOk = true := by rw [hdl]; rfl
      have hfilter : (i :: t).filter (fun j => (b.downloads j).isOk) =
          i :: t.filter (fun j => (b.downloads j).isOk) := by
        rw [List.filter_cons, if_pos hok]
      rw [hfilter, List.map_cons] at hnd
      have hnotin := (List.nodup_cons.mp hnd).1
      have hndt := (List.nodup_cons.mp hnd).2
      have hz : zipFile acc (mkFilename b i) (.image bytes) =
          acc ++ [(mkFilename b i, .image bytes)] :=
        zipFile_of_fresh acc _ _
          (fun e he => hfresh i (List.mem_cons_self i t) hok e he)
      dsimp only
      rw [hz, ih (acc ++ [(mkFilename b i, ZData.image bytes)]) hndt ?fresh]
      · rw [hfilter, List.map_cons, List.append_assoc, List.singleton_append]
        have hbytes : ZData.image bytes = ZData.image (b.downloads i).bytesOf := by
          rw [hdl]; rfl
        rw [hbytes]
      case fresh =>
        intro j hj hjok e he
        rcases List.mem_append.mp he with he | he
        · exact hfresh j (List.mem_cons_of_mem i hj) hjok e he
        · rcases List.mem_singleton.mp he with rfl
          intro hcontra
          apply hnotin
          have hij : mkFilename b i = mkFilename b j := hcontra
          rw [hij]
          exact List.mem_map.mpr
            ⟨j, List.mem_filter.mpr ⟨hj, hjok⟩, rfl⟩
    | httpError s =>
      have hok : (b.downloads i).isOk = false := by rw [hdl]; rfl
      have hfilter : (i :: t).filter (fun j => (b.downloads j).isOk) =
          t.filter (fun j => (b.downloads j).isOk) := by
        rw [List.filter_cons, if_neg (by simp [hok])]
      dsimp only
      rw [hfilter] at hnd
      rw [ih acc hnd (fun j hj => hfresh j (List.mem_cons_of_mem i hj)), hfilter]
    | transportError m =>
      have hok : (b.downloads i).isOk = false := by rw [hdl]; rfl
      have hfilter : (i :: t).filter (fun j => (b.downloads j).isOk) =
          t.filter (fun j => (b.downloads j).isOk) := by
        rw [List.filter_cons, if_neg (by simp [hok])]
      dsimp only
      rw [hfilter] at hnd
      rw [ih acc hnd (fun j hj => hfresh j (List.mem_cons_of_mem i hj)), hfilter]

theorem manifest_txt_ne_png (s : Chars) (k : Nat) :
    ("manifest.txt".data : Chars) ≠ s ++ "_".data ++ natChars k ++ ".png".data := by
  intro h
  have h2 : ("manifest.txt".data : Chars).getLast? = (".png".data : Chars).getLast? := by
    rw [h, List.getLast?_append_of_ne_nil _ (by decide)]
  exact absurd h2 (by decide)

theorem sched_nodup_of_perm (b : BatchRun) (sched : List Nat)
    (hperm : sched.Perm (successIdxs b)) : sched.Nodup :=
  hperm.nodup_iff.mpr (List.Nodup.filter _ (List.nodup_range b.n))

/-- Under a valid completion schedule the archive is exactly the image
entries of the successfully downloaded items, in completion order,
followed by the single manifest entry. -/
theorem bulkZip_eq (env : BulkEnv) (mode : Speed) (b : BatchRun) (sched : List Nat)
    (hperm : sched.Perm (successIdxs b)) :
    bulkZip env mode b sched =
      (sched.filter (fun i => (b.downloads i).isOk)).map
        (fun i => (mkFilename b i, ZData.image (b.downloads i).bytesOf)) ++
      [("manifest.txt".data, ZData.text (manifestContent env mode b sched))] := by
  have hok := sched_all_vendorOk b sched hperm
  have hfilter : sched.filter (fun i => vendorOk b i) = sched :=
    List.filter_eq_self.mpr hok
  have hnd : ((sched.filter (fun i => (b.downloads i).isOk)).map
      (fun i => mkFilename b i)).Nodup := by
    apply List.Nodup.map_on
    · intro x _ y _ hxy
      exact mkFilename_inj b hxy
    · exact List.Nodup.filter _ (sched_nodup_of_perm b sched hperm)
  have himg : zipImages b sched =
      (sched.filter (fun i => (b.downloads i).isOk)).map
        (fun i => (mkFilename b i, ZData.image (b.downloads i).bytesOf)) := by
    unfold zipImages
    rw [hfilter]
    have h := zipImages_fold_eq b sched [] hnd (by simp)
    rw [h]
    simp
  unfold bulkZip
  rw [himg]
  apply zipFile_of_fresh
  intro e he
  obtain ⟨i, _, rfl⟩ := List.mem_map.mp he
  exact fun hcontra => manifest_txt_ne_png _ _ hcontra.symm

/-- Claim C4: For every completed bulk batch (vendor call succeeded, all
downloads settled), the produced archive contains exactly one image
entry per item whose download succeeded plus exactly one manifest entry,
and the report rows — from which the manifest's per-item lines are
generated one per row — consist of exactly one row per submitted item,
each carrying that item's URL, its filename on success and a failure
reason string on failure. -/
theorem C4_archive_and_manifest_shape (env : BulkEnv) (mode : Speed)
    (b : BatchRun) (sched : List Nat)
    (hperm : sched.Perm (successIdxs b)) :
    (bulkZip env mode b sched).length = (okDownloadIdxs b).length + 1 ∧
    ((bulkZip env mode b sched).filter
        (fun e => e.1 == "manifest.txt".data)).length = 1 ∧
    ("manifest.txt".data, ZData.text (manifestContent env mode b sched)) ∈
      bulkZip env mode b sched ∧
    (∀ i ∈ okDownloadIdxs b,
      (mkFilename b i, ZData.image (b.downloads i).bytesOf) ∈
        bulkZip env mode b sched) ∧
    (bulkResults b sched).Perm ((List.range b.n).map (rowOf b)) ∧
    (manifestRows b sched).length = b.n ∧
    (∀ i, (rowOf b i).url = b.urls.getD i []) ∧
    (∀ i, (rowOf b i).success = false → ∃ msg, (rowOf b i).error = some msg) ∧
    (∀ i, (rowOf b i).success = true → (rowOf b i).filename = mkFilename b i) := by
  have hz := bulkZip_eq env mode b sched hperm
  have hok := sched_all_vendorOk b sched hperm
  have hlenperm : (sched.filter (fun i => (b.downloads i).isOk)).Perm
      (okDownloadIdxs b) := by
    unfold okDownloadIdxs
    exact hperm.filter _
  refine ⟨?_, ?_, ?_, ?_, bulkResults_perm b sched hperm, ?_, ?_, ?_, ?_⟩
  · rw [hz]
    simp [hlenperm.length_eq]
  · rw [hz, List.filter_append]
    have himg : ((sched.filter (fun i => (b.downloads i).isOk)).map
        (fun i => (mkFilename b i, ZData.image (b.downloads i).bytesOf))).filter
        (fun e => e.1 == "manifest.txt".data) = [] := by
      rw [List.filter_eq_nil_iff]
      intro e he
      obtain ⟨i, _, rfl⟩ := List.mem_map.mp he
      simp only [beq_iff_eq]
      exact (manifest_txt_ne_png (sanitizeFilenameChars (b.urls.getD i []))
        (i + 1)).symm
    rw [himg]
    simp
  · rw [hz]
    exact List.mem_append_right _ (List.mem_singleton.mpr rfl)
  · intro i hi
    rw [hz]
    apply List.mem_append_left
    exact List.mem_map.mpr ⟨i, hlenperm.mem_iff.mpr hi, rfl⟩
  · unfold manifestRows
    rw [List.length_map, (bulkResults_perm b sched hperm).length_eq,
      List.length_map, List.length_range]
  · intro i
    unfold rowOf
    by_cases h : vendorOk b i = true
    · simp only [h, if_true]
      cases b.downloads i <;> rfl
    · simp [h]
  · intro i
    unfold rowOf
    by_cases h : vendorOk b i = true
    · simp only [h, if_true]
      cases b.downloads i <;> simp
    · simp [h]
  · intro i
    unfold rowOf
    by_cases h : vendorOk b i = true
    · simp only [h, if_true]
      cases b.downloads i <;> simp
    · simp [h]

/-- Witness for C4: in a batch of 3 where the vendor reports item 2 (index
1) as a render failure and the other two downloads succeed, the archive
has exactly 2 image entries plus exactly 1 manifest entry, and the
manifest's `Results:` section has one per-item line group per submitted
URL (3 of them). -/
theorem C4_archive_and_manifest_shape_witness :
    ([2, 0] : List Nat).Perm (successIdxs
      ⟨["https://a.com".data, "https://b.com".data, "https://c.com".data],
       [⟨"i1".data, some ⟨true, 200, "OK".data, none⟩⟩,
        ⟨"i2".data, some ⟨false, 500, "ERR".data,
          some ⟨"render_error".data, "Render failed".data⟩⟩⟩,
        ⟨"i3".data, some ⟨true, 200, "OK".data, none⟩⟩],
       fun _ => .ok [7], fun _ => 4⟩) ∧
    (okDownloadIdxs
      ⟨["https://a.com".data, "https://b.com".data, "https://c.com".data],
       [⟨"i1".data, some ⟨true, 200, "OK".data, none⟩⟩,
        ⟨"i2".data, some ⟨false, 500, "ERR".data,
          some ⟨"render_error".data, "Render failed".data⟩⟩⟩,
        ⟨"i3".data, some ⟨true, 200, "OK".data, none⟩⟩],
       fun _ => .ok [7], fun _ => 4⟩).length = 2 ∧
    (bulkZip ⟨"t".data, 100, "50".data, "123".data, "67".data⟩ .fast
      ⟨["https://a.com".data, "https://b.com".data, "https://c.com".data],
       [⟨"i1".data, some ⟨true, 200, "OK".data, none⟩⟩,
        ⟨"i2".data, some ⟨false, 500, "ERR".data,
          some ⟨"render_error".data, "Render failed".data⟩⟩⟩,
        ⟨"i3".data, some ⟨true, 200, "OK".data, none⟩⟩],
       fun _ => .ok [7], fun _ => 4⟩ [2, 0]).length = 2 + 1 ∧
    ((bulkZip ⟨"t".data, 100, "50".data, "123".data, "67".data⟩ .fast
      ⟨["https://a.com".data, "https://b.com".data, "https://c.com".data],
       [⟨"i1".data, some ⟨true, 200, "OK".data, none⟩⟩,
        ⟨"i2".data, some ⟨false, 500, "ERR".data,
          some ⟨"render_error".data, "Render failed".data⟩⟩⟩,
        ⟨"i3".data, some ⟨true, 200, "OK".data, none⟩⟩],
       fun _ => .ok [7], fun _ => 4⟩ [2, 0]).filter
        (fun e => e.1 == "manifest.txt".data)).length = 1 ∧
    (manifestRows
      ⟨["https://a.com".data, "https://b.com".data, "https://c.com".data],
       [⟨"i1".data, some ⟨true, 200, "OK".data, none⟩⟩,
        ⟨"i2".data, some ⟨false, 500, "ERR".data,
          some ⟨"render_error".data, "Render failed".data⟩⟩⟩,
        ⟨"i3".data, some ⟨true, 200, "OK".data, none⟩⟩],
       fun _ => .ok [7], fun _ => 4⟩ [2, 0]).length = 3 := by
  have hperm : ([2, 0] : List Nat).Perm (successIdxs
      ⟨["https://a.com".data, "https://b.com".data, "https://c.com".data],
       [⟨"i1".data, some ⟨true, 200, "OK".data, none⟩⟩,
        ⟨"i2".data, some ⟨false, 500, "ERR".data,
          some ⟨"render_error".data, "Render failed".data⟩⟩⟩,
        ⟨"i3".data, some ⟨true, 200, "OK".data, none⟩⟩],
       fun _ => .ok [7], fun _ => 4⟩) := by decide
  have h := C4_archive_and_manifest_shape
    ⟨"t".data, 100, "50".data, "123".data, "67".data⟩ .fast
    ⟨["https://a.com".data, "https://b.com".data, "https://c.com".data],
     [⟨"i1".data, some ⟨true, 200, "OK".data, none⟩⟩,
      ⟨"i2".data, some ⟨false, 500, "ERR".data,
        some ⟨"render_error".data, "Render failed".data⟩⟩⟩,
      ⟨"i3".data, some ⟨true, 200, "OK".data, none⟩⟩],
     fun _ => .ok [7], fun _ => 4⟩ [2, 0] hperm
  have hok : (okDownloadIdxs
      ⟨["https://a.com".data, "https://b.com".data, "https://c.com".data],
       [⟨"i1".data, some ⟨true, 200, "OK".data, none⟩⟩,
        ⟨"i2".data, some ⟨false, 500, "ERR".data,
          some ⟨"render_error".data, "Render failed".data⟩⟩⟩,
        ⟨"i3".data, some ⟨true, 200, "OK".data, none⟩⟩],
       fun _ => .ok [7], fun _ => 4⟩).length = 2 := by decide
  refine ⟨hperm, hok, ?_, h.2.1, ?_⟩
  · rw [h.1, hok]
  · rw [h.2.2.2.2.2.1]
    rfl

/-- Claim C3: In the bulk pipeline, a per-item failure after a successful
vendor bulk call — a vendor render failure, or an image-download non-2xx
or transport error (which converts a vendor-success into a
local-failure) — is recorded as a failed row in the report and never
aborts the batch: the handler still returns the 200 archive response.
Only a non-2xx vendor bulk call is terminal for the whole batch,
producing an error response and no archive. -/
theorem C3_per_item_failures_recorded_batch_never_aborted (key : String)
    (us : List String) (speed : Option Speed)
    (downloads : Nat → DownloadOutcome) (timing : Nat → Nat)
    (sched : List Nat) (env : BulkEnv)
    (hne : us ≠ []) (hlen : us.length ≤ 20)
    (hval : us.filter (fun u => !isValidUrl u) = []) :
    (∀ etext, bulkHandler (some key) (some us) speed (.fail etext)
        downloads timing sched env =
      .errorResp 500 "Failed to process screenshots") ∧
    (∀ rs, bulkHandler (some key) (some us) speed (.ok rs)
        downloads timing sched env =
      .zipResp
        (bulkZip env (chosenSpeed speed)
          ⟨us.map String.data, rs, downloads, timing⟩ sched)
        (bulkHeaders env (chosenSpeed speed))) ∧
    (∀ rs, sched.Perm (successIdxs ⟨us.map String.data, rs, downloads, timing⟩) →
      ∀ i, i < rs.length →
        rowOf ⟨us.map String.data, rs, downloads, timing⟩ i ∈
          bulkResults ⟨us.map String.data, rs, downloads, timing⟩ sched ∧
        (vendorOk ⟨us.map String.data, rs, downloads, timing⟩ i = false →
          (rowOf ⟨us.map String.data, rs, downloads, timing⟩ i).success = false ∧
          (rowOf ⟨us.map String.data, rs, downloads, timing⟩ i).error =
            some (vendorFailMsg ⟨us.map String.data, rs, downloads, timing⟩ i)) ∧
        (∀ st, vendorOk ⟨us.map String.data, rs, downloads, timing⟩ i = true →
          downloads i = .httpError st →
          (rowOf ⟨us.map String.data, rs, downloads, timing⟩ i).success = false ∧
          (rowOf ⟨us.map String.data, rs, downloads, timing⟩ i).error =
            some ("HTTP ".data ++ natChars st)) ∧
        (∀ m, vendorOk ⟨us.map String.data, rs, downloads, timing⟩ i = true →
          downloads i = .transportError m →
          (rowOf ⟨us.map String.data, rs, downloads, timing⟩ i).success = false ∧
          (rowOf ⟨us.map String.data, rs, downloads, timing⟩ i).error = some m)) := by
  have hne' : us.isEmpty = false := by
    cases us with
    | nil => exact absurd rfl hne
    | cons a t => rfl
  have hlen' : ¬ us.length > 20 := by omega
  refine ⟨?_, ?_, ?_⟩
  · intro etext
    simp [bulkHandler, bulkValidate, hne', hlen', hval]
  · intro rs
    simp [bulkHandler, bulkValidate, hne', hlen', hval]
  · intro rs hperm i hi
    set b : BatchRun := ⟨us.map String.data, rs, downloads, timing⟩ with hb
    have hmem : rowOf b i ∈ bulkResults b sched := by
      apply (bulkResults_perm b sched hperm).symm.subset
      exact List.mem_map.mpr ⟨i, List.mem_range.mpr hi, rfl⟩
    refine ⟨hmem, ?_, ?_, ?_⟩
    · intro hnok
      unfold rowOf
      simp [hnok]
    · intro st hok hdl
      unfold rowOf
      simp only [hok, if_true, hdl]
      exact ⟨trivial, trivial⟩
    · intro m hok hdl
      unfold rowOf
      simp only [hok, if_true, hdl]
      exact ⟨trivial, trivial⟩

/-- Witness for C3: a concrete valid 2-URL batch in which item 1 renders
but its download returns HTTP 404; the handler still returns the archive
response, the 404 item is a failed row, and a failing vendor bulk call
returns the 500 error with no archive. -/
theorem C3_per_item_failures_recorded_batch_never_aborted_witness :
    (["https://a.com", "https://b.com"] : List String) ≠ [] ∧
    bulkHandler (some "k") (some ["https://a.com", "https://b.com"]) none
      (.fail "vendor 500") (fun _ => .ok [1]) (fun _ => 3) [0, 1]
      ⟨"t".data, 9, "4".data, "1".data, "50".data⟩ =
      .errorResp 500 "Failed to process screenshots" ∧
    (rowOf ⟨["https://a.com", "https://b.com"].map String.data,
      [⟨"i1".data, some ⟨true, 200, "OK".data, none⟩⟩,
       ⟨"i2".data, some ⟨true, 200, "OK".data, none⟩⟩],
      (fun i => if i = 1 then .httpError 404 else .ok [1]), fun _ => 3⟩ 1).success
      = false ∧
    (rowOf ⟨["https://a.com", "https://b.com"].map String.data,
      [⟨"i1".data, some ⟨true, 200, "OK".data, none⟩⟩,
       ⟨"i2".data, some ⟨true, 200, "OK".data, none⟩⟩],
      (fun i => if i = 1 then .httpError 404 else .ok [1]), fun _ => 3⟩ 1).error
      = some ("HTTP ".data ++ natChars 404) ∧
    rowOf ⟨["https://a.com", "https://b.com"].map String.data,
      [⟨"i1".data, some ⟨true, 200, "OK".data, none⟩⟩,
       ⟨"i2".data, some ⟨true, 200, "OK".data, none⟩⟩],
      (fun i => if i = 1 then .httpError 404 else .ok [1]), fun _ => 3⟩ 1 ∈
      bulkResults ⟨["https://a.com", "https://b.com"].map String.data,
        [⟨"i1".data, some ⟨true, 200, "OK".data, none⟩⟩,
         ⟨"i2".data, some ⟨true, 200, "OK".data, none⟩⟩],
        (fun i => if i = 1 then .httpError 404 else .ok [1]), fun _ => 3⟩ [1, 0] := by
  have h := C3_per_item_failures_recorded_batch_never_aborted "k"
    ["https://a.com", "https://b.com"] none
    (fun i => if i = 1 then .httpError 404 else .ok [1]) (fun _ => 3) [1, 0]
    ⟨"t".data, 9, "4".data, "1".data, "50".data⟩
    (by decide) (by decide) (by decide)
  have hperm : ([1, 0] : List Nat).Perm
      (successIdxs ⟨["https://a.com", "https://b.com"].map String.data,
        [⟨"i1".data, some ⟨true, 200, "OK".data, none⟩⟩,
         ⟨"i2".data, some ⟨true, 200, "OK".data, none⟩⟩],
        (fun i => if i = 1 then .httpError 404 else .ok [1]), fun _ => 3⟩) := by
    decide
  have hi := h.2.2
    [⟨"i1".data, some ⟨true, 200, "OK".data, none⟩⟩,
     ⟨"i2".data, some ⟨true, 200, "OK".data, none⟩⟩] hperm 1 (by decide)
  have hfail := hi.2.2.1 404 (by decide) (by decide)
  have h500 := C3_per_item_failures_recorded_batch_never_aborted "k"
    ["https://a.com", "https://b.com"] none
    (fun _ => .ok [1]) (fun _ => 3) [0, 1]
    ⟨"t".data, 9, "4".data, "1".data, "50".data⟩
    (by decide) (by decide) (by decide)
  exact ⟨by decide, h500.1 "vendor 500", hfail.1, hfail.2, hi.1⟩

theorem splitLinesAux_no_nl (l : Chars) :
    ∀ (acc : Chars), (∀ c ∈ l, c ≠ '\n') →
      splitLinesAux l acc = [acc.reverse ++ l] := by
  induction l with
  | nil => intro acc _; simp [splitLinesAux]
  | cons c t ih =>
    intro acc h
    have hc : c ≠ '\n' := h c (List.mem_cons_self c t)
    unfold splitLinesAux
    rw [if_neg hc, ih (c :: acc) (fun x hx => h x (List.mem_cons_of_mem c hx))]
    simp

theorem splitLinesAux_cons (c : Char) (rest acc : Chars) :
    splitLinesAux (c :: rest) acc =
      if c = '\n' then emitLine acc :: splitLinesAux rest []
      else splitLinesAux rest (c :: acc) := rfl

theorem splitLinesAux_append (l rest : Chars) :
    ∀ (acc : Chars), (∀ c ∈ l, c ≠ '\n') →
      splitLinesAux (l ++ '\n' :: rest) acc =
        emitLine (l.reverse ++ acc) :: splitLinesAux rest [] := by
  induction l with
  | nil =>
    intro acc _
    rw [List.nil_append, splitLinesAux_cons, if_pos rfl]
    simp
  | cons c t ih =>
    intro acc h
    have hc : c ≠ '\n' := h c (List.mem_cons_self c t)
    rw [List.cons_append, splitLinesAux_cons, if_neg hc,
      ih (c :: acc) (fun x hx => h x (List.mem_cons_of_mem c hx))]
    simp

theorem emitLine_of_no_cr (l : Chars) (h : ∀ c ∈ l, c ≠ '\r') :
    emitLine l.reverse = l := by
  unfold emitLine
  split
  · next r heq =>
    exfalso
    have : '\r' ∈ l.reverse := by rw [heq]; exact List.mem_cons_self _ _
    exact h '\r' (List.mem_reverse.mp this) rfl
  · simp

theorem splitLines_joinNl (L : List Chars) (hL : L ≠ [])
    (h : ∀ l ∈ L, ∀ c ∈ l, c ≠ '\n' ∧ c ≠ '\r') :
    splitLines (joinNl L) = L := by
  induction L with
  | nil => exact absurd rfl hL
  | cons x t ih =>
    cases t with
    | nil =>
      unfold joinNl splitLines
      rw [splitLinesAux_no_nl x []
        (fun c hc => (h x (List.mem_cons_self x []) c hc).1)]
      simp
    | cons y t2 =>
      show splitLines (x ++ '\n' :: joinNl (y :: t2)) = x :: (y :: t2)
      unfold splitLines
      rw [splitLinesAux_append x (joinNl (y :: t2)) []
        (fun c hc => (h x (List.mem_cons_self x _) c hc).1)]
      rw [List.append_nil,
        emitLine_of_no_cr x (fun c hc => (h x (List.mem_cons_self x _) c hc).2)]
      have := ih (List.cons_ne_nil y t2)
        (fun l hl c hc => h l (List.mem_cons_of_mem x hl) c hc)
      unfold splitLines at this
      rw [this]

theorem splitCommaAux_no_comma (l : Chars) :
    ∀ (acc : Chars), (∀ c ∈ l, c ≠ ',') →
      splitCommaAux l acc = [acc.reverse ++ l] := by
  induction l with
  | nil => intro acc _; simp [splitCommaAux]
  | cons c t ih =>
    intro acc h
    have hc : c ≠ ',' := h c (List.mem_cons_self c t)
    unfold splitCommaAux
    rw [if_neg hc, ih (c :: acc) (fun x hx => h x (List.mem_cons_of_mem c hx))]
    simp

theorem stripLeadQuote_eq_self {l : Chars}
    (hh : ∀ c ∈ l.head?, isQuote c = false) : stripLeadQuote l = l := by
  cases l with
  | nil => rfl
  | cons c rest =>
    have hc : isQuote c = false := hh c rfl
    unfold stripLeadQuote
    dsimp only
    rw [hc]
    simp

theorem stripQuotes_eq_self {l : Chars}
    (hh : ∀ c ∈ l.head?, isQuote c = false)
    (hl : ∀ c ∈ l.getLast?, isQuote c = false) :
    stripQuotes l = l := by
  unfold stripQuotes
  rw [stripLeadQuote_eq_self hh]
  dsimp only
  split
  · next c2 r2 heq =>
    have h2 : l.getLast? = some c2 := by
      rw [← List.head?_reverse, heq]
      rfl
    rw [hl c2 h2]
    simp only [Bool.false_eq_true, if_false]
  · rfl

theorem isValidUrlChars_nil : isValidUrlChars [] = false := by decide

theorem lineUrls_singleton (u : Chars)
    (htrim : trimChars u = u) (hne : u ≠ [])
    (hcomma : ∀ c ∈ u, c ≠ ',')
    (hqh : ∀ c ∈ u.head?, isQuote c = false)
    (hql : ∀ c ∈ u.getLast?, isQuote c = false)
    (hvalid : isValidUrlChars u = true) :
    lineUrls u = [u] := by
  have hemp : u.isEmpty = false := by
    cases u with
    | nil => exact absurd rfl hne
    | cons a t => rfl
  unfold lineUrls splitComma
  rw [htrim]
  dsimp only
  rw [hemp]
  simp only [Bool.false_eq_true, if_false]
  rw [splitCommaAux_no_comma u [] hcomma]
  simp only [List.reverse_nil, List.nil_append, List.map_cons, List.map_nil]
  rw [htrim, stripQuotes_eq_self hqh hql]
  simp [List.filter_cons, hvalid]

theorem dedupFirstAux_eq_self :
    ∀ (L : List Chars) (seen : List Chars), L.Nodup → (∀ x ∈ L, x ∉ seen) →
      dedupFirstAux seen L = L := by
  intro L
  induction L with
  | nil => intro seen _ _; rfl
  | cons x t ih =>
    intro seen hnd hout
    unfold dedupFirstAux
    rw [if_neg (hout x (List.mem_cons_self x t))]
    rw [ih (x :: seen) (List.nodup_cons.mp hnd).2 ?_]
    intro y hy
    rw [List.mem_cons]
    rintro (rfl | hmem)
    · exact (List.nodup_cons.mp hnd).1 hy
    · exact hout y (List.mem_cons_of_mem x hy) hmem

theorem flatMap_lineUrls_id (M : List Chars) (hM : ∀ u ∈ M, lineUrls u = [u]) :
    M.flatMap lineUrls = M := by
  induction M with
  | nil => rfl
  | cons x t ih =>
    rw [List.flatMap_cons, hM x (List.mem_cons_self x t),
      ih (fun u hu => hM u (List.mem_cons_of_mem x hu))]
    rfl

theorem parseCSVChars_joinNl (L : List Chars)
    (hvalid : ∀ u ∈ L, isValidUrlChars u = true)
    (htrim : ∀ u ∈ L, trimChars u = u)
    (hchars : ∀ u ∈ L, ∀ c ∈ u, c ≠ ',' ∧ c ≠ '\n' ∧ c ≠ '\r')
    (hq : ∀ u ∈ L, (∀ c ∈ u.head?, isQuote c = false) ∧
      (∀ c ∈ u.getLast?, isQuote c = false))
    (hnodup : L.Nodup) :
    parseCSVChars (joinNl L) = L := by
  cases hL : L with
  | nil => rfl
  | cons x t =>
    rw [← hL]
    have hsplit : splitLines (joinNl L) = L := by
      apply splitLines_joinNl L (by rw [hL]; exact List.cons_ne_nil x t)
      intro l hl c hc
      exact ⟨(hchars l hl c hc).2.1, (hchars l hl c hc).2.2⟩
    have hlines : ∀ u ∈ L, lineUrls u = [u] := by
      intro u hu
      have hne : u ≠ [] := by
        intro h0
        rw [h0] at hu
        have := hvalid [] hu
        rw [isValidUrlChars_nil] at this
        exact Bool.false_ne_true this
      exact lineUrls_singleton u (htrim u hu) hne
        (fun c hc => (hchars u hu c hc).1)
        (hq u hu).1 (hq u hu).2 (hvalid u hu)
    unfold parseCSVChars dedupFirst
    rw [hsplit, flatMap_lineUrls_id L hlines,
      dedupFirstAux_eq_self L [] hnodup (by simp)]

/-- Claim C7, counterexample: The claim says extraction from a single-column
file of already-valid, already-unique URLs returns exactly those URLs.
A valid URL ending in a quote character is mangled by the quote
stripping (and one containing a comma is split at the comma), so a
one-URL single-column file comes back changed. -/
theorem C7_counterexample_valid_url_mangled :
    isValidUrl "https://a.com/x'" = true ∧
    parseCSVForUrls "https://a.com/x'" = ["https://a.com/x"] ∧
    parseCSVForUrls "https://a.com/x'" ≠ ["https://a.com/x'"] ∧
    isValidUrl "https://a.com/x,y" = true ∧
    parseCSVForUrls "https://a.com/x,y" = ["https://a.com/x"] ∧
    parseCSVForUrls "https://a.com/x,y" ≠ ["https://a.com/x,y"] := by
  refine ⟨by decide, by decide, by decide, by decide, by decide, by decide⟩

/-- Claim C7, amended: CSV extraction deduplicates while preserving
first-seen order (e.g. a duplicated URL is listed once), and re-parsing
a single-column file of already-valid, already-unique URLs returns
exactly those URLs in order PROVIDED each URL contains no comma, no
CR/LF, is trim-invariant, and neither starts nor ends with a quote
character; a valid URL violating those side conditions (e.g. ending in
`'` or containing `,`) is altered by cell splitting or quote stripping. -/
theorem C7_dedup_and_conditional_idempotence (L : List Chars)
    (hvalid : ∀ u ∈ L, isValidUrlChars u = true)
    (htrim : ∀ u ∈ L, trimChars u = u)
    (hchars : ∀ u ∈ L, ∀ c ∈ u, c ≠ ',' ∧ c ≠ '\n' ∧ c ≠ '\r')
    (hq : ∀ u ∈ L, (∀ c ∈ u.head?, isQuote c = false) ∧
      (∀ c ∈ u.getLast?, isQuote c = false))
    (hnodup : L.Nodup) :
    parseCSVChars (joinNl L) = L ∧
    parseCSVForUrls ((joinNl L).asString) = L.map List.asString ∧
    parseCSVForUrls "https://a.com\nhttps://a.com" = ["https://a.com"] := by
  have h1 := parseCSVChars_joinNl L hvalid htrim hchars hq hnodup
  refine ⟨h1, ?_, by decide⟩
  have hdata : ((joinNl L).asString).data = joinNl L := List.toList_asString (joinNl L)
  unfold parseCSVForUrls
  rw [hdata, h1]

/-- Witness for C7 (amended): two clean distinct URLs survive a
round-trip through a single-column file. -/
theorem C7_dedup_and_conditional_idempotence_witness :
    parseCSVChars (joinNl ["https://a.com".data, "http://b.org/x".data]) =
      ["https://a.com".data, "http://b.org/x".data] ∧
    parseCSVForUrls ((joinNl ["https://a.com".data, "http://b.org/x".data]).asString) =
      ["https://a.com", "http://b.org/x"] := by
  have h := C7_dedup_and_conditional_idempotence
    ["https://a.com".data, "http://b.org/x".data]
    (by decide) (by decide) (by decide) (by decide) (by decide)
  refine ⟨h.1, ?_⟩
  rw [h.2.1]
  rfl
